import Mathlib

/-!
Verification development for a small Flask chat application (`app.py`).

The application keeps a per-user conversation history in a process-wide
dictionary `user_histories`, relays chat messages to an external completion
API in streaming mode, and exposes `ask`, `reset` and `health` endpoints.

The embedding below translates the history store, the `ask` request handler,
its inner streaming generator `generate`, and the `reset` handler into pure
Lean functions.  The external streamed API call is modelled by an `Upstream`
value: the list of chunks the provider yields, together with an optional
exception raised after those chunks (covering both a failing `create` call,
with no chunks, and a mid-stream failure).
-/

set_option autoImplicit false

namespace MahabharatBot

/-- One chat message, as stored in `user_histories`: a Python dict
`\x7b"role": ..., "content": ...\x7d` with both fields strings. -/
structure ChatTurn where
  role : String
  content : String
deriving DecidableEq, Repr

/-- A per-user conversation history: an ordered list of turns. -/
abbrev History := List ChatTurn

/-- The process-wide `user_histories` dictionary, modelled as an association
list from user id to history.  Keys are unique by construction of the
operations below. -/
abbrev Store := List (String × History)

/-- Dictionary lookup `user_histories.get(user_id)`; also decides the
`user_id in user_histories` test (membership holds iff the result is `some`). -/
def storeGet (s : Store) (k : String) : Option History :=
  match s with
  | [] => none
  | (k', v) :: rest => if k' = k then some v else storeGet rest k

/-- Dictionary assignment `user_histories[user_id] = v`: replaces the binding
for `k` if present, otherwise adds it. -/
def storeSet (s : Store) (k : String) (v : History) : Store :=
  match s with
  | [] => [(k, v)]
  | (k', v') :: rest =>
      if k' = k then (k, v) :: rest else (k', v') :: storeSet rest k v

/-- Dictionary removal `user_histories.pop(user_id, None)`. -/
def storePop (s : Store) (k : String) : Store :=
  match s with
  | [] => []
  | (k', v') :: rest =>
      if k' = k then storePop rest k else (k', v') :: storePop rest k

/-- The fixed system prompt `system_content` of `app.py` (the storyteller
instruction template), verbatim. -/
def system_content : String :=
"
📜 System Content: AI Mahābhārata Guide

You are an AI Mahābhārata Guide (later also covering Rāmāyaṇa and Purāṇas).

Your goal is to explain every character, event, and subplot in the epics in a way that grabs attention immediately, even for someone who has never read the Mahābhārata before.

🎨 Style Rules

Use very simple English, so even children can understand.

Write in a clean, structured format with clear Markdown headings.

Use emojis in headings (🌸, ⚔️, 📖, ✨, etc.) for visual clarity.

Do not narrate like a bedtime story. Instead, write like a teacher + guide + storyteller.

Be engaging, emotional, and factual.

Always connect characters: relationships, rivalries, bonds, alliances, and enmities.

End every response with morals and lessons.

🏗️ Response Structure for Each Character/Event
🌸 1. Introduction and Family

Parents, siblings, teachers, and friends.

Boons, curses, or myths connected to their birth.

Pre-Mahābhārata history should be long and detailed, showing how destiny prepared them.

Include side stories or Purāṇic references if they explain a character’s traits or future actions.

👶 2. Early Life & Personality

Describe nature, skills, values, and character traits.

Include mistakes or weaknesses shown in youth.

Small anecdotes that shaped their personality.

Include references to boons, curses, or divine interventions.

🛡️ 3. Journey in the Mahābhārata

This section is the longest and most detailed.

Cover every incident where the character was involved, step by step.

Show connections with all major characters (Karna, Bhīṣma, Kṛṣṇa, Draupadī, Duryodhana, etc.).

Include direct Sanskrit verses (श्लोक) from the Mahābhārata, with:

Original Sanskrit line.

Word-by-word meaning.

Simple explanation in English.

Significance of the line in context.

Give references (e.g., Mahābhārata, Udyoga Parva, Bhīṣma Parva).

Include emotional and psychological insights, describing what the character felt, thought, and struggled with.

Include detailed battlefield strategies, dialogues, promises, oaths, and moral dilemmas.

⚔️ 4. Deeds: Good and Bad

List good deeds, noble actions, and dharmic behavior.

List mistakes, sins, or wrong decisions.

Explain how both influenced the course of the war or story.

🌟 5. Death and Legacy

Explain how the character died.

Show emotional and cultural impact of their death.

Mention temples, festivals, and stories that preserve their memory.

Explain lessons learned from their life and death.

✨ 6. Teachings and Morals (with Sanskrit)

Include Sanskrit verses representing their philosophy, ethics, or decisions.

Provide:

Original Sanskrit line.

Word-by-word breakdown.

Simple English meaning.

Extract morals:

Good actions → how to follow them.

Bad actions → how to avoid them.

End with at least 2 strong morals in bold.

Example:

Sanskrit: “धर्मो रक्षति रक्षितः” (Manu-smṛti, echoed in Mahābhārata)
धर्मः (Dharma) = Righteousness / Duty
रक्षितः (Protected) = when protected
रक्षति (Protects) = it protects you
Meaning: “Dharma protects those who protect it.”
Moral: Always stand by truth and duty, or downfall is certain.

🌺 Extra Rules

Frequent Sanskrit usage in:

Mahābhārata journey

Key dialogues

Turning points

Morals

Explain Sanskrit meaning in simple English to preserve authenticity.

Responses must be emotionally touching and educational.

Pre-Mahābhārata history and journey sections have no length limit → make them extremely detailed.

End every character/event with at least 2 bold morals.

Ensure maximum length response possible for LLaMA 3.1 405B Instruct → fill model capacity with verified, engaging, detailed content.
  
"

/-- The seed turn `\x7b"role": "system", "content": system_content\x7d`. -/
def systemTurn : ChatTurn := ⟨"system", system_content⟩

/-- The length cap applied in the `finally` block of `generate`:
`if len(hist) > 120: hist = [hist[0]] + hist[-100:]`.
`hist.take 1` is Python `[hist[0]]` (the cap only ever runs on a non-empty
list) and `hist.drop (hist.length - 100)` is Python `hist[-100:]`. -/
def trimHistory (hist : History) : History :=
  if hist.length > 120 then hist.take 1 ++ hist.drop (hist.length - 100)
  else hist

/-- Spec-side description of truncation: the last `n` entries of a sequence,
written independently of the implementation (reverse, take, reverse). -/
def lastEntries (n : Nat) (l : History) : History :=
  (l.reverse.take n).reverse

/-- One streamed chunk's `chunk.choices[0].delta`, which `generate` probes in
two shapes: an attribute-style object with a `content` field, or a dict that
may or may not carry a `"content"` key.  Either way the field can be absent
(`None`). -/
inductive Delta where
  | attr (content : Option String)
  | dict (content : Option String)
deriving DecidableEq, Repr

/-- The shape-probing in `generate`'s chunk loop:
`text = delta.content if hasattr(delta, "content") else delta.get("content")`. -/
def extractText : Delta → Option String
  | .attr c => c
  | .dict c => c

/-- The model of one external streamed completion call: the chunks the
provider yields followed by an optional exception.  `err = some e` covers
both a `create` call that raises before any chunk (`chunks = []`) and a
mid-stream failure after some chunks. -/
structure Upstream where
  chunks : List Delta
  err : Option String
deriving DecidableEq, Repr

/-- The chunk loop of `generate`: for each chunk, extract `text`; when it is
truthy (present and non-empty) accumulate it into `partial_answer` and yield
it.  Returns the yielded fragments in order and the final `partial_answer`. -/
def processChunks : List Delta → List String × String
  | [] => ([], "")
  | c :: rest =>
      match extractText c with
      | some t =>
          if t ≠ "" then
            let (frs, acc) := processChunks rest
            (t :: frs, t ++ acc)
          else processChunks rest
      | none => processChunks rest

/-- Spec-side concatenation of a fragment list, in emission order. -/
def concatAll : List String → String
  | [] => ""
  | s :: rest => s ++ concatAll rest

/-- The diagnostic fragment `generate` yields when the stream raises:
`"\n\n[Stream error: " + str(e) + "]"`. -/
def errFragment (e : String) : String := "\n\n[Stream error: " ++ e ++ "]"

/-- The `finally` block of `generate`: if `partial_answer` is non-empty,
re-read the history (defaulting to a fresh system seed), append the
assistant turn, apply the length cap, and write the history back.  When
`partial_answer` is empty the store is untouched. -/
def commitAssistant (store : Store) (userId : String) (acc : String) : Store :=
  if acc ≠ "" then
    let hist := (storeGet store userId).getD [systemTurn]
    let hist := hist ++ [⟨"assistant", acc⟩]
    let hist := trimHistory hist
    storeSet store userId hist
  else store

/-- What one run of the generator produces: every fragment yielded to the
caller (content fragments, plus the diagnostic fragment when the upstream
raises) and the store after the `finally` block ran. -/
structure GenOutput where
  fragments : List String
  store : Store
deriving DecidableEq, Repr

/-- The body of `generate`: call the external API with `history` (modelled by
`up`), stream the chunks, on an exception yield the diagnostic fragment, and
in `finally` commit the accumulated answer. -/
def generate (store : Store) (userId : String) (up : Upstream) : GenOutput :=
  let pc := processChunks up.chunks
  let outFrags :=
    match up.err with
    | some e => pc.1 ++ [errFragment e]
    | none => pc.1
  ⟨outFrags, commitAssistant store userId pc.2⟩

/-- The lazy-seeding step of `ask` (History Store `get_or_create`):
`if user_id not in user_histories: user_histories[user_id] = [system]`,
then read the user's history. -/
def getOrCreate (store : Store) (userId : String) : Store × History :=
  match storeGet store userId with
  | some h => (store, h)
  | none => (storeSet store userId [systemTurn], [systemTurn])

/-- The outcome of a POST to `/ask`.  `configError` is `abort(500, ...)`,
`inputError` is the `400` JSON error reply, and `stream` is the `200`
streaming response carrying the fragments yielded to the caller and the
message list sent to the external API. -/
inductive AskResult where
  | configError (status : Nat) (description : String)
  | inputError (status : Nat) (error : String)
  | stream (fragments : List String) (sentMessages : History)
deriving DecidableEq, Repr

/-- The fragments of a streaming outcome (`none` for the error replies). -/
def AskResult.fragments? : AskResult → Option (List String)
  | .stream frs _ => some frs
  | _ => none

/-- The message list a streaming outcome sent to the external API
(`none` for the error replies). -/
def AskResult.sentMessages? : AskResult → Option History
  | .stream _ ms => some ms
  | _ => none

/-- Python `str.strip()`: remove leading and trailing whitespace.  Written
directly on the character list (drop whitespace from the front, then from
the back) so that it evaluates by kernel reduction. -/
def pyStrip (s : String) : String :=
  ⟨((s.data.dropWhile Char.isWhitespace).reverse.dropWhile
      Char.isWhitespace).reverse⟩

/-- Python truthiness of `client.api_key` (`None` and `""` are falsy). -/
def apiKeyTruthy : Option String → Bool
  | none => false
  | some s => s ≠ ""

/-- Python `request.cookies.get("user_id") or str(uuid.uuid4())`: use the
cookie when present and non-empty, else the freshly generated uuid. -/
def cookieOrFresh (cookie : Option String) (freshId : String) : String :=
  match cookie with
  | some c => if c ≠ "" then c else freshId
  | none => freshId

/-- The `/ask` handler.  `apiKey` is `client.api_key`, `cookie` the request's
`user_id` cookie, `freshId` the uuid that `str(uuid.uuid4())` would produce
for this request, `body` the `message` field of the JSON body, and `up` the
behaviour of the external streamed call.  Returns the HTTP outcome and the
store after the request (including the generator's `finally` block). -/
def ask (apiKey : Option String) (store : Store) (cookie : Option String)
    (freshId : String) (body : Option String) (up : Upstream) :
    AskResult × Store :=
  if apiKeyTruthy apiKey = false then
    (.configError 500 "OPENROUTER_API_KEY missing", store)
  else
    let userMessage := pyStrip (body.getD "")
    if userMessage = "" then (.inputError 400 "Empty message", store)
    else
      let userId := cookieOrFresh cookie freshId
      let gc := getOrCreate store userId
      let history := gc.2 ++ [⟨"user", userMessage⟩]
      let store2 := storeSet gc.1 userId history
      let g := generate store2 userId up
      (.stream g.fragments history, g.store)

/-- Observable side-effect events of one `/ask` request, used to state the
ordering contract: the store write that commits the user turn, the external
streamed API call, each fragment yielded to the caller, and the store write
that commits the accumulated assistant answer. -/
inductive Event where
  | commitUser (userId : String) (hist : History)
  | externalCall (messages : History)
  | emit (fragment : String)
  | commitAnswer (userId : String) (content : String)
deriving DecidableEq, Repr

/-- The ordered side-effect trace of one `/ask` request, pairing each event
with the store contents at the moment the event happens.  `ask` writes the
user turn (`user_histories[user_id] = history`) before `generate` runs; the
generator then makes the external call, yields its fragments, and finally
commits the assistant turn when the accumulated answer is non-empty. -/
def askTrace (apiKey : Option String) (store : Store) (cookie : Option String)
    (freshId : String) (body : Option String) (up : Upstream) :
    List (Event × Store) :=
  if apiKeyTruthy apiKey = false then []
  else
    let userMessage := pyStrip (body.getD "")
    if userMessage = "" then []
    else
      let userId := cookieOrFresh cookie freshId
      let gc := getOrCreate store userId
      let history := gc.2 ++ [⟨"user", userMessage⟩]
      let store2 := storeSet gc.1 userId history
      let pc := processChunks up.chunks
      let outFrags :=
        match up.err with
        | some e => pc.1 ++ [errFragment e]
        | none => pc.1
      (Event.commitUser userId history, store2) ::
        (Event.externalCall history, store2) ::
          (outFrags.map (fun f => (Event.emit f, store2)) ++
            (if pc.2 ≠ "" then
              [(Event.commitAnswer userId pc.2, commitAssistant store2 userId pc.2)]
            else []))

/-- The `/reset` handler: if the cookie names a user that has an entry, pop
it; always reply 200 with the fixed message. -/
def reset (store : Store) (cookie : Option String) : (Nat × String) × Store :=
  let store' :=
    match cookie with
    | some uid =>
        if uid ≠ "" ∧ (storeGet store uid).isSome then storePop store uid
        else store
    | none => store
  ((200, "Memory cleared. Let\x27s start a fresh conversation!"), store')

/-- Whether a trace entry is the assistant-turn commit. -/
def isCommitAnswer : Event × Store → Bool
  | (Event.commitAnswer _ _, _) => true
  | _ => false

/-- Whether a trace entry is a fragment emission. -/
def isEmit : Event × Store → Bool
  | (Event.emit _, _) => true
  | _ => false

/-- Repeated `/ask` requests from one cookie-holding user whose external
stream always raises before yielding any chunk (so the generator accumulates
no text and commits no assistant turn). -/
def repFailingAsk : Nat → Store → Store
  | 0, s => s
  | n + 1, s =>
      repFailingAsk n (ask (some "key") s (some "u") "fresh" (some "m") ⟨[], some "boom"⟩).2

/-! ### Store lemmas -/

theorem storeGet_storeSet_self (s : Store) (k : String) (v : History) :
    storeGet (storeSet s k v) k = some v := by
  induction s with
  | nil => simp [storeGet, storeSet]
  | cons p rest ih =>
      obtain ⟨k', v'⟩ := p
      by_cases h : k' = k <;> simp [storeGet, storeSet, h, ih]

theorem storeGet_storeSet_ne (s : Store) (k k' : String) (v : History)
    (h : k' ≠ k) : storeGet (storeSet s k v) k' = storeGet s k' := by
  induction s with
  | nil => simp [storeGet, storeSet, Ne.symm h]
  | cons p rest ih =>
      obtain ⟨k₀, v₀⟩ := p
      by_cases h₀ : k₀ = k
      · subst h₀
        simp [storeGet, storeSet, Ne.symm h]
      · simp [storeGet, storeSet, h₀, ih]

theorem storeGet_storePop_self (s : Store) (k : String) :
    storeGet (storePop s k) k = none := by
  induction s with
  | nil => simp [storeGet, storePop]
  | cons p rest ih =>
      obtain ⟨k', v'⟩ := p
      by_cases h : k' = k <;> simp [storeGet, storePop, h, ih]

theorem storeGet_storePop_ne (s : Store) (k k' : String) (h : k' ≠ k) :
    storeGet (storePop s k) k' = storeGet s k' := by
  induction s with
  | nil => simp [storeGet, storePop]
  | cons p rest ih =>
      obtain ⟨k₀, v₀⟩ := p
      by_cases h₀ : k₀ = k
      · subst h₀
        simp [storeGet, storePop, Ne.symm h, ih]
      · simp [storeGet, storePop, h₀, ih]

/-! ### Stream-processing lemmas -/

/-- The accumulated `partial_answer` is exactly the concatenation, in
emission order, of the content fragments yielded to the caller. -/
theorem processChunks_concat (cs : List Delta) :
    (processChunks cs).2 = concatAll (processChunks cs).1 := by
  induction cs with
  | nil => simp [processChunks, concatAll]
  | cons c rest ih =>
      cases hc : extractText c with
      | none => simpa [processChunks, hc] using ih
      | some t =>
          by_cases ht : t = ""
          · simpa [processChunks, hc, ht] using ih
          · simp [processChunks, hc, ht, concatAll, ih]

/-- The accumulated answer is empty exactly when no fragment was yielded. -/
theorem processChunks_acc_empty_iff (cs : List Delta) :
    (processChunks cs).2 = "" ↔ (processChunks cs).1 = [] := by
  induction cs with
  | nil => simp [processChunks]
  | cons c rest ih =>
      cases hc : extractText c with
      | none => simpa [processChunks, hc] using ih
      | some t =>
          by_cases ht : t = ""
          · rw [show processChunks (c :: rest) = processChunks rest by
              simp [processChunks, hc, ht]]
            exact ih
          · simp [processChunks, hc, ht]
            intro h
            have hd := congrArg String.data h
            simp [String.data_append] at hd
            exact ht (by cases t; simp_all)

/-! ### Trim lemmas -/

/-- After the length cap runs, a history never exceeds 120 entries unless it
already respected the cap before the trim, and the trimmed form has exactly
101 entries when the cap fires. -/
theorem trimHistory_length (l : History) :
    (trimHistory l).length = if l.length > 120 then 101 else l.length := by
  by_cases h : l.length > 120
  · simp [trimHistory, h]
    omega
  · simp [trimHistory, h]

theorem trimHistory_length_le (l : History) : (trimHistory l).length ≤ 120 ∨
    trimHistory l = l := by
  by_cases h : l.length > 120
  · left
    rw [trimHistory_length]
    simp [h]
  · right
    simp [trimHistory, h]

/-- The cap keeps any two final entries: trimming `l ++ [x, y]` still ends
with `x, y`. -/
theorem trimHistory_append_two (l : History) (x y : ChatTurn) :
    ∃ p, trimHistory (l ++ [x, y]) = p ++ [x, y] := by
  by_cases h : (l ++ [x, y]).length > 120
  · have hlen : (l ++ [x, y]).length = l.length + 2 := by simp
    have hle : (l ++ [x, y]).length - 100 ≤ l.length := by omega
    refine ⟨(l ++ [x, y]).take 1 ++ l.drop ((l ++ [x, y]).length - 100), ?_⟩
    rw [trimHistory, if_pos h, List.drop_append_of_le_length hle, List.append_assoc]
  · exact ⟨l, by rw [trimHistory, if_neg h]⟩

/-- The cap keeps any single final entry likewise. -/
theorem trimHistory_append_one (l : History) (y : ChatTurn) :
    ∃ p, trimHistory (l ++ [y]) = p ++ [y] := by
  by_cases h : (l ++ [y]).length > 120
  · have hlen : (l ++ [y]).length = l.length + 1 := by simp
    have hle : (l ++ [y]).length - 100 ≤ l.length := by omega
    refine ⟨(l ++ [y]).take 1 ++ l.drop ((l ++ [y]).length - 100), ?_⟩
    rw [trimHistory, if_pos h, List.drop_append_of_le_length hle, List.append_assoc]
  · exact ⟨l, by rw [trimHistory, if_neg h]⟩

/-! ### Claim C2 — the length-capping trim -/

/-- C2: whenever the trim fires (history length strictly greater than 120
after an append), the resulting history has exactly 101 entries and equals
the original first element followed by the last 100 elements of the pre-trim
sequence. -/
theorem trim_gives_first_plus_last_100 (hist : History)
    (h : hist.length > 120) :
    (trimHistory hist).length = 101 ∧
    trimHistory hist = hist.take 1 ++ lastEntries 100 hist := by
  refine ⟨by rw [trimHistory_length, if_pos h], ?_⟩
  simp only [trimHistory, lastEntries, if_pos h]
  rw [← List.rtake_eq_reverse_take_reverse]
  rfl

/-- Witness for C2 at a concrete 121-entry history. -/
theorem trim_gives_first_plus_last_100_witness :
    (List.replicate 121 (ChatTurn.mk "user" "x")).length > 120 ∧
    ((trimHistory (List.replicate 121 (ChatTurn.mk "user" "x"))).length = 101 ∧
      trimHistory (List.replicate 121 (ChatTurn.mk "user" "x"))
        = (List.replicate 121 (ChatTurn.mk "user" "x")).take 1
            ++ lastEntries 100 (List.replicate 121 (ChatTurn.mk "user" "x"))) :=
  ⟨by decide, trim_gives_first_plus_last_100 _ (by decide)⟩

/-! ### Claim C1 — when the trim runs -/

set_option maxRecDepth 100000 in
/-- C1 counterexample: 120 consecutive `/ask` requests by one cookie-holding
user, each of whose external calls raises before yielding a fragment, leave
that user with a stored history of 121 entries.  Each such request appends
one user turn via the store-write in `ask`, and that append is not followed
by any trim (the only trim sits in the generator cleanup, which is skipped
when the accumulated answer is empty), so an append can complete with the
stored history exceeding 120 entries. -/
theorem user_turn_append_can_exceed_cap :
    (storeGet (repFailingAsk 120 []) "u").map List.length = some 121 := by
  decide

/-- C1 amended: only the assistant-turn append performed in the generator
cleanup is followed by the length-capping trim; whenever that cleanup commits
a non-empty accumulated answer, the stored history afterwards never exceeds
120 entries.  The user-turn append in `ask` performs no trim and can leave
more than 120 entries. -/
theorem assistant_append_trims_to_cap (store : Store) (userId acc : String)
    (h : acc ≠ "") :
    ∃ hist, storeGet (commitAssistant store userId acc) userId = some hist ∧
      hist.length ≤ 120 := by
  simp only [commitAssistant, if_pos h]
  refine ⟨_, storeGet_storeSet_self _ _ _, ?_⟩
  rw [trimHistory_length]
  split <;> omega

/-- Witness for the amended C1 at a concrete store and answer. -/
theorem assistant_append_trims_to_cap_witness :
    ("Hi" ≠ "") ∧
    ∃ hist, storeGet (commitAssistant [] "u" "Hi") "u" = some hist ∧
      hist.length ≤ 120 :=
  ⟨by decide, assistant_append_trims_to_cap [] "u" "Hi" (by decide)⟩

/-! ### Claim C4 — empty message -/

/-- C4 counterexample: with the credential missing, a whitespace-only message
is answered by the 500 configuration abort, not by the 400 empty-message
reply, because the `client.api_key` check precedes the empty-message check in
`ask`. -/
theorem empty_message_without_credential_is_500 :
    pyStrip " " = "" ∧
    (ask none [] none "f" (some " ") ⟨[], none⟩).1
      = AskResult.configError 500 "OPENROUTER_API_KEY missing" ∧
    (ask none [] none "f" (some " ") ⟨[], none⟩).1
      ≠ AskResult.inputError 400 "Empty message" := by
  decide

/-- C4 amended: provided the API credential is configured, every request
whose message is empty after trimming is answered with the 400 JSON error
reply carrying the text "Empty message", and the store is left completely
unchanged. -/
theorem empty_message_rejected_store_unchanged (apiKey : Option String)
    (store : Store) (cookie : Option String) (freshId : String)
    (body : Option String) (up : Upstream)
    (hk : apiKeyTruthy apiKey = true) (hempty : pyStrip (body.getD "") = "") :
    ask apiKey store cookie freshId body up
      = (AskResult.inputError 400 "Empty message", store) := by
  simp [ask, hk, hempty]

/-- Witness for the amended C4 at a concrete whitespace-only request. -/
theorem empty_message_rejected_store_unchanged_witness :
    apiKeyTruthy (some "k") = true ∧ (pyStrip ((some "  ").getD "") = "") ∧
    ask (some "k") [] none "f" (some "  ") ⟨[], none⟩
      = (AskResult.inputError 400 "Empty message", []) :=
  ⟨by decide, by decide,
    empty_message_rejected_store_unchanged (some "k") [] none "f" (some "  ")
      ⟨[], none⟩ (by decide) (by decide)⟩

/-! ### Claim C5 — missing credential -/

/-- C5: with the external API credential unset (or empty, which Python also
treats as falsy), `ask` fails immediately with the 500 configuration abort,
produces no side-effect events at all (no store write, no external call, no
fragment), leaves the store unchanged, and its outcome is distinct from every
streaming outcome, hence from a mid-stream failure. -/
theorem missing_credential_immediate_500 (apiKey : Option String)
    (store : Store) (cookie : Option String) (freshId : String)
    (body : Option String) (up : Upstream)
    (hk : apiKeyTruthy apiKey = false) :
    ask apiKey store cookie freshId body up
      = (AskResult.configError 500 "OPENROUTER_API_KEY missing", store) ∧
    askTrace apiKey store cookie freshId body up = [] ∧
    ∀ frs ms, AskResult.configError 500 "OPENROUTER_API_KEY missing"
      ≠ AskResult.stream frs ms := by
  refine ⟨by simp [ask, hk], by simp [askTrace, hk], ?_⟩
  intro frs ms
  simp

/-- Witness for C5 with an unset credential and a non-trivial request. -/
theorem missing_credential_immediate_500_witness :
    apiKeyTruthy none = false ∧
    (ask none [] (some "u") "f" (some "hello") ⟨[], none⟩
      = (AskResult.configError 500 "OPENROUTER_API_KEY missing", []) ∧
    askTrace none [] (some "u") "f" (some "hello") ⟨[], none⟩ = [] ∧
    ∀ frs ms, AskResult.configError 500 "OPENROUTER_API_KEY missing"
      ≠ AskResult.stream frs ms) :=
  ⟨by decide,
    missing_credential_immediate_500 none [] (some "u") "f" (some "hello")
      ⟨[], none⟩ (by decide)⟩

/-! ### Frame lemmas for the store operations of a request -/

theorem storeGet_commitAssistant_ne (s : Store) (uid acc k : String)
    (h : k ≠ uid) : storeGet (commitAssistant s uid acc) k = storeGet s k := by
  by_cases ha : acc ≠ ""
  · simp only [commitAssistant, if_pos ha]
    exact storeGet_storeSet_ne _ _ _ _ h
  · simp only [commitAssistant, if_neg ha]

theorem storeGet_getOrCreate_ne (s : Store) (uid k : String) (h : k ≠ uid) :
    storeGet (getOrCreate s uid).1 k = storeGet s k := by
  cases hs : storeGet s uid with
  | some h0 => simp [getOrCreate, hs]
  | none => simp [getOrCreate, hs, storeGet_storeSet_ne _ _ _ _ h]

/-- One `/ask` request only ever writes under the user id it serves (the
cookie value, or the freshly generated uuid when the cookie is absent or
empty): every other store entry is left untouched. -/
theorem ask_frame (apiKey : Option String) (store : Store)
    (cookie : Option String) (freshId : String) (body : Option String)
    (up : Upstream) (k : String)
    (hk : k ≠ cookieOrFresh cookie freshId) :
    storeGet (ask apiKey store cookie freshId body up).2 k = storeGet store k := by
  by_cases ha : apiKeyTruthy apiKey = false
  · simp [ask, ha]
  · by_cases hm : pyStrip (body.getD "") = ""
    · simp [ask, ha, hm]
    · simp only [ask, ha, hm, generate, if_false, if_neg, ite_false]
      simp [ha, hm, storeGet_commitAssistant_ne _ _ _ _ hk,
        storeGet_storeSet_ne _ _ _ _ hk, storeGet_getOrCreate_ne _ _ _ hk]

/-! ### Claim C8 — reset then get_or_create -/

/-- C8: for every prior store state, popping a user's history via `/reset`
and then lazily re-creating it yields a history of exactly one turn, whose
role is `"system"` and whose content is the fixed instruction template — the
same history that a never-seen user id receives. -/
theorem reset_then_get_or_create_is_fresh (store : Store) (uid : String)
    (h : uid ≠ "") :
    (getOrCreate (reset store (some uid)).2 uid).2 = [systemTurn] ∧
    systemTurn = ⟨"system", system_content⟩ ∧
    (getOrCreate [] uid).2 = [systemTurn] := by
  have hnone : storeGet (reset store (some uid)).2 uid = none := by
    by_cases hs : storeGet store uid = none
    · simp [reset, hs]
    · simp [reset, h, Option.isSome_iff_ne_none.mpr hs, storeGet_storePop_self]
  exact ⟨by simp [getOrCreate, hnone], rfl, by simp [getOrCreate, storeGet]⟩

/-- Witness for C8 after a non-trivial conversation. -/
theorem reset_then_get_or_create_is_fresh_witness :
    ("u" ≠ "") ∧
    ((getOrCreate (reset [("u", [systemTurn, ⟨"user", "q"⟩])] (some "u")).2 "u").2
        = [systemTurn] ∧
    systemTurn = ⟨"system", system_content⟩ ∧
    (getOrCreate [] "u").2 = [systemTurn]) :=
  ⟨by decide,
    reset_then_get_or_create_is_fresh [("u", [systemTurn, ⟨"user", "q"⟩])] "u"
      (by decide)⟩

/-! ### Claim C10 — reset on unknown users and its frame -/

/-- C10: a `/reset` whose cookie is absent, or whose user id has no store
entry, still replies 200 with the fixed success message and leaves the whole
store unchanged; and a reset for any user id never mutates an entry other
than the one the cookie names. -/
theorem reset_unknown_total_and_frame (store : Store) (cookie : Option String)
    (hmiss : cookie = none ∨
      ∃ uid, cookie = some uid ∧ storeGet store uid = none) :
    reset store cookie
      = ((200, "Memory cleared. Let\x27s start a fresh conversation!"), store) ∧
    ∀ uid k, k ≠ uid → storeGet (reset store (some uid)).2 k = storeGet store k := by
  constructor
  · rcases hmiss with rfl | ⟨uid, rfl, hnone⟩
    · rfl
    · simp only [reset]
      rw [if_neg (by simp [hnone])]
  · intro uid k hkne
    by_cases hc : uid ≠ "" ∧ (storeGet store uid).isSome
    · simp only [reset]
      rw [if_pos hc]
      exact storeGet_storePop_ne store uid k hkne
    · simp only [reset]
      rw [if_neg hc]

/-- Witness for C10 with an absent cookie over a populated store. -/
theorem reset_unknown_total_and_frame_witness :
    reset [("u", [systemTurn])] none
      = ((200, "Memory cleared. Let\x27s start a fresh conversation!"),
          [("u", [systemTurn])]) ∧
    ∀ uid k, k ≠ uid →
      storeGet (reset [("u", [systemTurn])] (some uid)).2 k
        = storeGet [("u", [systemTurn])] k :=
  reset_unknown_total_and_frame [("u", [systemTurn])] none (Or.inl rfl)

/-! ### Claim C3 — mid-stream failure handling -/

/-- C3: when the upstream stream raises after emitting some fragments, the
caller receives exactly the pre-failure fragments followed by one final
diagnostic fragment and the request still ends as a normal stream; the
concatenation of the pre-failure fragments is committed as the assistant
turn when at least one fragment was emitted, and when no text was produced
the store stays exactly as it was after the user-turn commit, so no
assistant turn is added. -/
theorem upstream_failure_relay (apiKey : Option String) (store : Store)
    (uid freshId : String) (body : Option String) (up : Upstream)
    (e msg : String) (h0 : History) (frs : List String)
    (hk : apiKeyTruthy apiKey = true)
    (huid : uid ≠ "")
    (hs : storeGet store uid = some h0)
    (hmsg : pyStrip (body.getD "") = msg) (hne : msg ≠ "")
    (herr : up.err = some e)
    (hfrs : (processChunks up.chunks).1 = frs) :
    (ask apiKey store (some uid) freshId body up).1
      = AskResult.stream (frs ++ [errFragment e]) (h0 ++ [⟨"user", msg⟩]) ∧
    (frs ≠ [] →
      ∃ p, storeGet (ask apiKey store (some uid) freshId body up).2 uid
        = some (p ++ [ChatTurn.mk "user" msg,
            ChatTurn.mk "assistant" (concatAll frs)])) ∧
    (frs = [] →
      (ask apiKey store (some uid) freshId body up).2
        = storeSet store uid (h0 ++ [⟨"user", msg⟩])) := by
  have hku : cookieOrFresh (some uid) freshId = uid := by
    simp [cookieOrFresh, huid]
  have hg : getOrCreate store uid = (store, h0) := by
    simp [getOrCreate, hs]
  have hacc : (processChunks up.chunks).2 = concatAll frs := by
    rw [processChunks_concat, hfrs]
  have haccempty : (processChunks up.chunks).2 = "" ↔ frs = [] := by
    rw [processChunks_acc_empty_iff, hfrs]
  have h2 : (ask apiKey store (some uid) freshId body up).2
      = commitAssistant (storeSet store uid (h0 ++ [⟨"user", msg⟩])) uid
          (processChunks up.chunks).2 := by
    simp [ask, hk, hmsg, hne, hku, hg, generate]
  refine ⟨by simp [ask, hk, hmsg, hne, hku, hg, generate, herr, hfrs], ?_, ?_⟩
  · intro hfr
    have haccne : (processChunks up.chunks).2 ≠ "" := by
      rw [Ne, haccempty]
      exact hfr
    have hist2 : storeGet (storeSet store uid (h0 ++ [⟨"user", msg⟩])) uid
        = some (h0 ++ [⟨"user", msg⟩]) := storeGet_storeSet_self _ _ _
    have hconcatne : concatAll frs ≠ "" := by
      rw [← hacc]
      exact haccne
    obtain ⟨p, hp⟩ := trimHistory_append_two h0 (ChatTurn.mk "user" msg)
      (ChatTurn.mk "assistant" (concatAll frs))
    refine ⟨p, ?_⟩
    rw [h2]
    simp only [commitAssistant, hacc, if_pos hconcatne, hist2, Option.getD_some]
    rw [storeGet_storeSet_self]
    have hassoc : (h0 ++ [ChatTurn.mk "user" msg])
          ++ [ChatTurn.mk "assistant" (concatAll frs)]
        = h0 ++ [ChatTurn.mk "user" msg,
            ChatTurn.mk "assistant" (concatAll frs)] := by
      simp
    rw [hassoc, hp]
  · intro hfr
    have hacc0 : (processChunks up.chunks).2 = "" := haccempty.mpr hfr
    rw [h2, commitAssistant, hacc0]
    simp

/-- Witness for C3: two fragments then a failure, for a seeded user. -/
theorem upstream_failure_relay_witness :
    apiKeyTruthy (some "k") = true ∧ ("u" ≠ "") ∧
    storeGet [("u", [systemTurn])] "u" = some [systemTurn] ∧
    pyStrip ((some "hi").getD "") = "hi" ∧ ("hi" ≠ "") ∧
    (Upstream.mk [Delta.attr (some "Hel"), Delta.attr (some "lo")]
      (some "boom")).err = some "boom" ∧
    (processChunks (Upstream.mk [Delta.attr (some "Hel"),
      Delta.attr (some "lo")] (some "boom")).chunks).1 = ["Hel", "lo"] ∧
    ((ask (some "k") [("u", [systemTurn])] (some "u") "f" (some "hi")
        (Upstream.mk [Delta.attr (some "Hel"), Delta.attr (some "lo")]
          (some "boom"))).1
      = AskResult.stream (["Hel", "lo"] ++ [errFragment "boom"])
          ([systemTurn] ++ [⟨"user", "hi"⟩]) ∧
    (["Hel", "lo"] ≠ ([] : List String) →
      ∃ p, storeGet (ask (some "k") [("u", [systemTurn])] (some "u") "f"
          (some "hi") (Upstream.mk [Delta.attr (some "Hel"),
            Delta.attr (some "lo")] (some "boom"))).2 "u"
        = some (p ++ [ChatTurn.mk "user" "hi",
            ChatTurn.mk "assistant" (concatAll ["Hel", "lo"])])) ∧
    (["Hel", "lo"] = ([] : List String) →
      (ask (some "k") [("u", [systemTurn])] (some "u") "f" (some "hi")
          (Upstream.mk [Delta.attr (some "Hel"), Delta.attr (some "lo")]
            (some "boom"))).2
        = storeSet [("u", [systemTurn])] "u" ([systemTurn] ++ [⟨"user", "hi"⟩]))) :=
  ⟨rfl, by decide, rfl, by decide, by decide, rfl, by decide,
    upstream_failure_relay (some "k") [("u", [systemTurn])] "u" "f"
      (some "hi")
      (Upstream.mk [Delta.attr (some "Hel"), Delta.attr (some "lo")]
        (some "boom"))
      "boom" "hi" [systemTurn] ["Hel", "lo"]
      rfl (by decide) rfl (by decide) (by decide) rfl (by decide)⟩

/-! ### Claim C7 — history after a successful ask -/

/-- C7 counterexample: a successful ask whose stream ends without any
content fragment (here one chunk whose delta has no text) emits zero
fragments to the caller and appends no assistant turn at all: the stored
history ends with the user turn, not with a user turn followed by an
assistant turn. -/
theorem success_without_fragments_adds_no_assistant :
    (ask (some "k") [] (some "u") "f" (some "hi")
        ⟨[Delta.attr none], none⟩).1.fragments? = some [] ∧
    ((storeGet (ask (some "k") [] (some "u") "f" (some "hi")
        ⟨[Delta.attr none], none⟩).2 "u").map (List.map ChatTurn.role))
      = some ["system", "user"] := by
  decide

/-- C7 amended: after a successful ask (no upstream error), the stored
history ends with the user turn followed by an assistant turn containing the
concatenation, in emission order, of all fragments emitted to the caller —
provided at least one fragment was emitted; when the successful stream
carried no content fragment, no assistant turn is appended and the history
ends with the user turn alone. -/
theorem successful_ask_appends_user_then_assistant (apiKey : Option String)
    (store : Store) (uid freshId : String) (body : Option String)
    (up : Upstream) (msg : String) (h0 : History) (frs : List String)
    (hk : apiKeyTruthy apiKey = true)
    (huid : uid ≠ "")
    (hs : storeGet store uid = some h0)
    (hmsg : pyStrip (body.getD "") = msg) (hne : msg ≠ "")
    (herr : up.err = none)
    (hfrs : (processChunks up.chunks).1 = frs) :
    (ask apiKey store (some uid) freshId body up).1
      = AskResult.stream frs (h0 ++ [⟨"user", msg⟩]) ∧
    (frs ≠ [] →
      ∃ p, storeGet (ask apiKey store (some uid) freshId body up).2 uid
        = some (p ++ [ChatTurn.mk "user" msg,
            ChatTurn.mk "assistant" (concatAll frs)])) ∧
    (frs = [] →
      storeGet (ask apiKey store (some uid) freshId body up).2 uid
        = some (h0 ++ [⟨"user", msg⟩])) := by
  have hku : cookieOrFresh (some uid) freshId = uid := by
    simp [cookieOrFresh, huid]
  have hg : getOrCreate store uid = (store, h0) := by
    simp [getOrCreate, hs]
  have hacc : (processChunks up.chunks).2 = concatAll frs := by
    rw [processChunks_concat, hfrs]
  have haccempty : (processChunks up.chunks).2 = "" ↔ frs = [] := by
    rw [processChunks_acc_empty_iff, hfrs]
  have h2 : (ask apiKey store (some uid) freshId body up).2
      = commitAssistant (storeSet store uid (h0 ++ [⟨"user", msg⟩])) uid
          (processChunks up.chunks).2 := by
    simp [ask, hk, hmsg, hne, hku, hg, generate]
  refine ⟨by simp [ask, hk, hmsg, hne, hku, hg, generate, herr, hfrs], ?_, ?_⟩
  · intro hfr
    have haccne : (processChunks up.chunks).2 ≠ "" := by
      rw [Ne, haccempty]
      exact hfr
    have hist2 : storeGet (storeSet store uid (h0 ++ [⟨"user", msg⟩])) uid
        = some (h0 ++ [⟨"user", msg⟩]) := storeGet_storeSet_self _ _ _
    have hconcatne : concatAll frs ≠ "" := by
      rw [← hacc]
      exact haccne
    obtain ⟨p, hp⟩ := trimHistory_append_two h0 (ChatTurn.mk "user" msg)
      (ChatTurn.mk "assistant" (concatAll frs))
    refine ⟨p, ?_⟩
    rw [h2]
    simp only [commitAssistant, hacc, if_pos hconcatne, hist2, Option.getD_some]
    rw [storeGet_storeSet_self]
    have hassoc : (h0 ++ [ChatTurn.mk "user" msg])
          ++ [ChatTurn.mk "assistant" (concatAll frs)]
        = h0 ++ [ChatTurn.mk "user" msg,
            ChatTurn.mk "assistant" (concatAll frs)] := by
      simp
    rw [hassoc, hp]
  · intro hfr
    have hacc0 : (processChunks up.chunks).2 = "" := haccempty.mpr hfr
    rw [h2, commitAssistant, hacc0]
    simp [storeGet_storeSet_self]

/-- Witness for the amended C7: a successful stream with two fragments. -/
theorem successful_ask_appends_user_then_assistant_witness :
    apiKeyTruthy (some "k") = true ∧ ("u" ≠ "") ∧
    storeGet [("u", [systemTurn])] "u" = some [systemTurn] ∧
    pyStrip ((some "hi").getD "") = "hi" ∧ ("hi" ≠ "") ∧
    (Upstream.mk [Delta.attr (some "Hel"), Delta.dict (some "lo")]
      none).err = none ∧
    (processChunks (Upstream.mk [Delta.attr (some "Hel"),
      Delta.dict (some "lo")] none).chunks).1 = ["Hel", "lo"] ∧
    ((ask (some "k") [("u", [systemTurn])] (some "u") "f" (some "hi")
        (Upstream.mk [Delta.attr (some "Hel"), Delta.dict (some "lo")]
          none)).1
      = AskResult.stream ["Hel", "lo"] ([systemTurn] ++ [⟨"user", "hi"⟩]) ∧
    (["Hel", "lo"] ≠ ([] : List String) →
      ∃ p, storeGet (ask (some "k") [("u", [systemTurn])] (some "u") "f"
          (some "hi") (Upstream.mk [Delta.attr (some "Hel"),
            Delta.dict (some "lo")] none)).2 "u"
        = some (p ++ [ChatTurn.mk "user" "hi",
            ChatTurn.mk "assistant" (concatAll ["Hel", "lo"])])) ∧
    (["Hel", "lo"] = ([] : List String) →
      storeGet (ask (some "k") [("u", [systemTurn])] (some "u") "f"
          (some "hi") (Upstream.mk [Delta.attr (some "Hel"),
            Delta.dict (some "lo")] none)).2 "u"
        = some ([systemTurn] ++ [⟨"user", "hi"⟩]))) :=
  ⟨rfl, by decide, rfl, by decide, by decide, rfl, by decide,
    successful_ask_appends_user_then_assistant (some "k")
      [("u", [systemTurn])] "u" "f" (some "hi")
      (Upstream.mk [Delta.attr (some "Hel"), Delta.dict (some "lo")] none)
      "hi" [systemTurn] ["Hel", "lo"]
      rfl (by decide) rfl (by decide) (by decide) rfl (by decide)⟩

/-! ### Claim C9 — cookie-less requests -/

/-- C9: two consecutive cookie-less asks are served under their own freshly
generated uuids: assuming the two generated uuids are distinct and unused
(which `uuid.uuid4()` provides), the first request's model call sees only
the system turn plus its own message, the first request leaves the second
uuid's entry absent, and the second request's model call likewise sees only
the system turn plus its own message — the two requests never share
history. -/
theorem cookieless_asks_are_isolated (apiKey : Option String) (store : Store)
    (f1 f2 : String) (b1 b2 : Option String) (m1 m2 : String)
    (u1 u2 : Upstream)
    (hk : apiKeyTruthy apiKey = true)
    (hne : f1 ≠ f2)
    (hf1 : storeGet store f1 = none) (hf2 : storeGet store f2 = none)
    (hm1 : pyStrip (b1.getD "") = m1) (hm1ne : m1 ≠ "")
    (hm2 : pyStrip (b2.getD "") = m2) (hm2ne : m2 ≠ "") :
    (ask apiKey store none f1 b1 u1).1.sentMessages?
      = some [systemTurn, ⟨"user", m1⟩] ∧
    storeGet (ask apiKey store none f1 b1 u1).2 f2 = none ∧
    (ask apiKey (ask apiKey store none f1 b1 u1).2 none f2 b2 u2).1.sentMessages?
      = some [systemTurn, ⟨"user", m2⟩] := by
  have hframe : storeGet (ask apiKey store none f1 b1 u1).2 f2 = none := by
    rw [ask_frame apiKey store none f1 b1 u1 f2 (by simpa [cookieOrFresh] using hne.symm)]
    exact hf2
  refine ⟨?_, hframe, ?_⟩
  · simp [ask, hk, hm1, hm1ne, cookieOrFresh, getOrCreate, hf1,
      AskResult.sentMessages?]
  · generalize (ask apiKey store none f1 b1 u1).2 = s1 at hframe ⊢
    simp [ask, hk, hm2, hm2ne, cookieOrFresh, getOrCreate, hframe,
      AskResult.sentMessages?]

/-- Witness for C9 with two concrete cookie-less requests. -/
theorem cookieless_asks_are_isolated_witness :
    apiKeyTruthy (some "k") = true ∧ ("id1" ≠ "id2") ∧
    storeGet [] "id1" = none ∧ storeGet [] "id2" = none ∧
    pyStrip ((some "hello").getD "") = "hello" ∧ ("hello" ≠ "") ∧
    pyStrip ((some "there").getD "") = "there" ∧ ("there" ≠ "") ∧
    ((ask (some "k") [] none "id1" (some "hello")
        (Upstream.mk [] none)).1.sentMessages?
      = some [systemTurn, ⟨"user", "hello"⟩] ∧
    storeGet (ask (some "k") [] none "id1" (some "hello")
        (Upstream.mk [] none)).2 "id2" = none ∧
    (ask (some "k") (ask (some "k") [] none "id1" (some "hello")
        (Upstream.mk [] none)).2 none "id2" (some "there")
        (Upstream.mk [] none)).1.sentMessages?
      = some [systemTurn, ⟨"user", "there"⟩]) :=
  ⟨rfl, by decide, rfl, rfl, by decide, by decide, by decide, by decide,
    cookieless_asks_are_isolated (some "k") [] "id1" "id2" (some "hello")
      (some "there") "hello" "there" (Upstream.mk [] none)
      (Upstream.mk [] none) rfl (by decide) rfl rfl (by decide) (by decide)
      (by decide) (by decide)⟩

/-! ### Trace-shape lemmas for the ordering claim -/

/-- In a trace whose second entry is the external call and whose other
entries are not external calls, the external call appears only at index 1. -/
theorem external_call_position (c0 : Event × Store) (h : History) (s : Store)
    (E tail : List (Event × Store))
    (hc0 : ∀ ms st, c0 ≠ (Event.externalCall ms, st))
    (hE : ∀ x ∈ E, ∀ ms st, x ≠ (Event.externalCall ms, st))
    (htail : ∀ x ∈ tail, ∀ ms st, x ≠ (Event.externalCall ms, st)) :
    ∀ (i : Nat) (ms : History) (st : Store),
      (c0 :: (Event.externalCall h, s) :: (E ++ tail))[i]?
        = some (Event.externalCall ms, st) →
      i = 1 ∧ ms = h ∧ st = s := by
  intro i ms st hi
  rcases i with _ | _ | i'
  · simp only [List.getElem?_cons_zero, Option.some.injEq] at hi
    exact absurd hi (hc0 ms st)
  · simp only [List.getElem?_cons_succ, List.getElem?_cons_zero,
      Option.some.injEq, Prod.mk.injEq, Event.externalCall.injEq] at hi
    exact ⟨rfl, hi.1.symm, hi.2.symm⟩
  · exfalso
    simp only [List.getElem?_cons_succ] at hi
    have hmem := List.getElem?_mem hi
    rcases List.mem_append.mp hmem with hEm | hTm
    · exact hE _ hEm ms st rfl
    · exact htail _ hTm ms st rfl

/-- In a trace whose first two entries are not assistant commits, whose
middle block contains none, and whose final block has at most one entry, at
most one assistant commit occurs. -/
theorem filter_commitAnswer_shape (c0 c1 : Event × Store)
    (E tail : List (Event × Store))
    (hc0 : isCommitAnswer c0 = false) (hc1 : isCommitAnswer c1 = false)
    (hE : ∀ x ∈ E, isCommitAnswer x = false) (htlen : tail.length ≤ 1) :
    ((c0 :: c1 :: (E ++ tail)).filter isCommitAnswer).length ≤ 1 := by
  rw [List.filter_cons_of_neg (by simp [hc0]),
    List.filter_cons_of_neg (by simp [hc1]), List.filter_append]
  have hEnil : E.filter isCommitAnswer = [] :=
    List.filter_eq_nil_iff.mpr (fun a ha => by simp [hE a ha])
  rw [hEnil, List.nil_append]
  exact le_trans (List.length_filter_le _ _) htlen

/-- In a trace whose middle block contains no assistant commit and whose
final block contains no emission, every emission index precedes every
assistant-commit index. -/
theorem emit_before_commitAnswer_shape (c0 c1 : Event × Store)
    (E tail : List (Event × Store))
    (hc0 : isCommitAnswer c0 = false) (hc1 : isCommitAnswer c1 = false)
    (hE : ∀ x ∈ E, isCommitAnswer x = false)
    (htail : ∀ x ∈ tail, isEmit x = false) :
    ∀ (i j : Nat) (f : String) (st : Store) (u a : String) (st2 : Store),
      (c0 :: c1 :: (E ++ tail))[i]? = some (Event.emit f, st) →
      (c0 :: c1 :: (E ++ tail))[j]? = some (Event.commitAnswer u a, st2) →
      i < j := by
  intro i j f st u a st2 hi hj
  have hjge : E.length + 2 ≤ j := by
    by_contra hlt
    push_neg at hlt
    rcases j with _ | _ | j'
    · simp only [List.getElem?_cons_zero, Option.some.injEq] at hj
      rw [hj] at hc0
      simp [isCommitAnswer] at hc0
    · simp only [List.getElem?_cons_succ, List.getElem?_cons_zero,
        Option.some.injEq] at hj
      rw [hj] at hc1
      simp [isCommitAnswer] at hc1
    · simp only [List.getElem?_cons_succ] at hj
      have hj'lt : j' < E.length := by omega
      rw [List.getElem?_append_left hj'lt] at hj
      have := hE _ (List.getElem?_mem hj)
      simp [isCommitAnswer] at this
  have hilt : i < E.length + 2 := by
    by_contra hge
    push_neg at hge
    rcases i with _ | _ | i'
    · omega
    · omega
    · simp only [List.getElem?_cons_succ] at hi
      have hge' : E.length ≤ i' := by omega
      rw [List.getElem?_append_right hge'] at hi
      have := htail _ (List.getElem?_mem hi)
      simp [isEmit] at this
  omega

/-! ### Claim C6 — side-effect ordering of one ask -/

/-- C6: in the side-effect trace of every successful ask, the store write
that commits the user turn strictly precedes the external call; at the
moment of the external call the served user's stored history already ends
with the user turn (so no state with the call started but the user turn
absent occurs); the assistant commit happens at most once; and every
fragment emission precedes the assistant commit, so the assistant turn is
never committed incrementally. -/
theorem user_commit_before_external_call (apiKey : Option String)
    (store : Store) (cookie : Option String) (freshId : String)
    (body : Option String) (up : Upstream) (msg : String)
    (hk : apiKeyTruthy apiKey = true)
    (hmsg : pyStrip (body.getD "") = msg) (hne : msg ≠ "") :
    (∀ (i : Nat) (ms : History) (st : Store),
      (askTrace apiKey store cookie freshId body up)[i]?
          = some (Event.externalCall ms, st) →
      (∃ j, j < i ∧ ∃ h2 st2,
        (askTrace apiKey store cookie freshId body up)[j]?
          = some (Event.commitUser (cookieOrFresh cookie freshId) h2, st2)) ∧
      ∃ h, storeGet st (cookieOrFresh cookie freshId) = some h ∧
        h.getLast? = some ⟨"user", msg⟩) ∧
    ((askTrace apiKey store cookie freshId body up).filter
        isCommitAnswer).length ≤ 1 ∧
    (∀ (i j : Nat) (f : String) (st : Store) (u2 a : String) (st2 : Store),
      (askTrace apiKey store cookie freshId body up)[i]?
          = some (Event.emit f, st) →
      (askTrace apiKey store cookie freshId body up)[j]?
          = some (Event.commitAnswer u2 a, st2) →
      i < j) := by
  set uid := cookieOrFresh cookie freshId with huid_def
  set gc := getOrCreate store uid with hgc_def
  set hist := gc.2 ++ [ChatTurn.mk "user" msg] with hhist_def
  set s2 := storeSet gc.1 uid hist with hs2_def
  set pc := processChunks up.chunks with hpc_def
  set outFrags := (match up.err with
    | some e => pc.1 ++ [errFragment e]
    | none => pc.1) with hout_def
  set E := outFrags.map (fun f => (Event.emit f, s2)) with hE_def
  set T := (if pc.2 ≠ "" then
      [(Event.commitAnswer uid pc.2, commitAssistant s2 uid pc.2)]
    else []) with hT_def
  have ht : askTrace apiKey store cookie freshId body up
      = (Event.commitUser uid hist, s2) :: (Event.externalCall hist, s2)
          :: (E ++ T) := by
    simp only [askTrace]
    rw [if_neg (by simp [hk])]
    simp only [hmsg]
    rw [if_neg hne]
  have hEem : ∀ x ∈ E, ∃ f, x = (Event.emit f, s2) := by
    intro x hx
    obtain ⟨f, -, rfl⟩ := List.mem_map.mp hx
    exact ⟨f, rfl⟩
  have hTca : ∀ x ∈ T, isCommitAnswer x = true := by
    intro x hx
    by_cases hp : pc.2 ≠ ""
    · rw [hT_def, if_pos hp] at hx
      simp only [List.mem_singleton] at hx
      subst hx
      rfl
    · rw [hT_def, if_neg hp] at hx
      simp at hx
  have hTlen : T.length ≤ 1 := by
    rw [hT_def]
    split <;> simp
  rw [ht]
  refine ⟨?_, ?_, ?_⟩
  · intro i ms st hi
    obtain ⟨hi1, hms, hst⟩ := external_call_position
      (Event.commitUser uid hist, s2) hist s2 E T
      (by intro ms' st' heq; simp at heq)
      (by
        intro x hx ms' st' heq
        obtain ⟨f, rfl⟩ := hEem x hx
        simp at heq)
      (by
        intro x hx ms' st' heq
        have := hTca x hx
        rw [heq] at this
        simp [isCommitAnswer] at this)
      i ms st hi
    subst hi1
    subst hst
    refine ⟨⟨0, by omega, hist, s2, rfl⟩, hist, ?_, ?_⟩
    · exact storeGet_storeSet_self _ _ _
    · exact List.getLast?_concat _
  · exact filter_commitAnswer_shape _ _ E T rfl rfl
      (fun x hx => by obtain ⟨f, rfl⟩ := hEem x hx; rfl) hTlen
  · exact emit_before_commitAnswer_shape _ _ E T rfl rfl
      (fun x hx => by obtain ⟨f, rfl⟩ := hEem x hx; rfl)
      (fun x hx => by
        have := hTca x hx
        cases x with
        | mk ev st =>
            cases ev <;> simp [isCommitAnswer, isEmit] at this ⊢)

/-- Witness for C6 at a concrete successful request. -/
theorem user_commit_before_external_call_witness :
    apiKeyTruthy (some "k") = true ∧
    pyStrip ((some "hi").getD "") = "hi" ∧ ("hi" ≠ "") ∧
    ((∀ (i : Nat) (ms : History) (st : Store),
      (askTrace (some "k") [] (some "u") "f" (some "hi")
          (Upstream.mk [Delta.attr (some "He")] none))[i]?
          = some (Event.externalCall ms, st) →
      (∃ j, j < i ∧ ∃ h2 st2,
        (askTrace (some "k") [] (some "u") "f" (some "hi")
            (Upstream.mk [Delta.attr (some "He")] none))[j]?
          = some (Event.commitUser (cookieOrFresh (some "u") "f") h2, st2)) ∧
      ∃ h, storeGet st (cookieOrFresh (some "u") "f") = some h ∧
        h.getLast? = some ⟨"user", "hi"⟩) ∧
    ((askTrace (some "k") [] (some "u") "f" (some "hi")
        (Upstream.mk [Delta.attr (some "He")] none)).filter
        isCommitAnswer).length ≤ 1 ∧
    (∀ (i j : Nat) (f : String) (st : Store) (u2 a : String) (st2 : Store),
      (askTrace (some "k") [] (some "u") "f" (some "hi")
          (Upstream.mk [Delta.attr (some "He")] none))[i]?
          = some (Event.emit f, st) →
      (askTrace (some "k") [] (some "u") "f" (some "hi")
          (Upstream.mk [Delta.attr (some "He")] none))[j]?
          = some (Event.commitAnswer u2 a, st2) →
      i < j)) :=
  ⟨rfl, by decide, by decide,
    user_commit_before_external_call (some "k") [] (some "u") "f"
      (some "hi") (Upstream.mk [Delta.attr (some "He")] none) "hi"
      rfl (by decide) (by decide)⟩

end MahabharatBot
